import Mathlib

/-!
Shallow embedding of the exception-handling lowering subsystem declared in
`src/ir/irlandingpad.h` (`IRLandingPadInfo`, `IRLandingPad`).

Opaque backend pointers are modelled by natural-number identifiers wrapped in
`Option` (so that a C++ `NULL` pointer is `none`):
  `llvm::BasicBlock*` / `Statement*` / `ClassDeclaration*` / `LLValue*` ↦ `Option Nat`.
The two `std::deque<IRLandingPadInfo>` members are Lean lists (front = oldest),
and the two `std::stack` members are Lean lists whose head is the stack top.

The header only declares the member functions; their bodies are not part of
the provided sources, so each operation below is modelled from the spec, as
indicated in its doc comment.
-/

/-- One dispatch clause of a constructed landing-pad block: either a typed
catch test transferring to a target block, or an unconditional finally
cleanup.  This is the observable shape of the block the synthesizer builds. -/
inductive Clause where
  | catchClause (catchType : Nat) (target : Nat)
  | cleanupClause (body : Nat)
  deriving DecidableEq

/-- `IRLandingPadInfo`: one handler descriptor.  Field order and nullability
follow the C++ struct: `target` (catch or finally target bb), `finallyBody`
(nonzero iff this is a finally), `catchType` (nonzero iff this is a catch).
The default constructor (all `NULL`) is the transient pre-allocation value. -/
structure IRLandingPadInfo where
  target : Option Nat
  finallyBody : Option Nat
  catchType : Option Nat
  deriving DecidableEq

/-- Modelled from the spec: the constructor `IRLandingPadInfo(Catch*,
llvm::BasicBlock* end)` (body not in the provided sources) records the catch
clause's exception type and its target block; `finallyBody` stays `NULL`. -/
def IRLandingPadInfo.mkCatch (catchType target : Nat) : IRLandingPadInfo :=
  ⟨some target, none, some catchType⟩

/-- Modelled from the spec: the constructor `IRLandingPadInfo(Statement*
finallystmt)` (body not in the provided sources) records the cleanup body;
`catchType` stays `NULL`. -/
def IRLandingPadInfo.mkFinally (body : Nat) : IRLandingPadInfo :=
  ⟨none, some body, none⟩

/-- The clause a committed descriptor contributes to a landing pad: a finally
descriptor yields an unconditional cleanup clause, a catch descriptor yields a
typed test branching to its target; the transient all-`NULL` default value
contributes nothing. -/
def IRLandingPadInfo.toClause (info : IRLandingPadInfo) : Option Clause :=
  match info.finallyBody with
  | some b => some (Clause.cleanupClause b)
  | none =>
    match info.catchType, info.target with
    | some ty, some tg => some (Clause.catchClause ty tg)
    | _, _ => none

/-- `IRLandingPad`: the per-function EH state.  `infos` are the committed
descriptors of the currently open scopes, `unpushed_infos` the pending ones
registered since the last push, `nInfos` the watermark stack, `padBBs` the
invoke-target stack (`none` = `NULL`), `catch_var` the memoized exception
slot.  `nextVal` models the backend's fresh-value allocator used when the
exception slot is created. -/
structure IRLandingPad where
  infos : List IRLandingPadInfo
  unpushed_infos : List IRLandingPadInfo
  nInfos : List Nat
  padBBs : List (Option (List Clause))
  catch_var : Option Nat
  nextVal : Nat
  deriving DecidableEq

/-- The state built by the C++ default constructor: empty containers, empty
stacks, `catch_var = NULL`. -/
def IRLandingPad.initial : IRLandingPad :=
  ⟨[], [], [], [], none, 0⟩

/-- Modelled from the spec: `IRLandingPad::constructLandingPad` (body not in
the provided sources).  The dispatch clause list of the landing pad built
from the full active Registry: commit batches are walked from the most
recently committed (innermost scope, the descriptors above the top watermark)
to the earliest, and within one batch the descriptors keep registration
order. -/
def IRLandingPad.constructLandingPad :
    List IRLandingPadInfo → List Nat → List Clause
  | infos, [] => infos.filterMap IRLandingPadInfo.toClause
  | infos, n :: ns =>
    (infos.drop n).filterMap IRLandingPadInfo.toClause ++
      IRLandingPad.constructLandingPad (infos.take n) ns

/-- Modelled from the spec: `IRLandingPad::push` (body not in the provided
sources).  (1) push the current Registry length onto the watermark stack;
(2) move the pending descriptors into committed state, appended in
registration order; (3) build the landing pad from the full active Registry;
(4) push that block, or `none` if the active Registry is empty, onto the
invoke-target stack.  The insertion point `inBB` fixes where the block is
created and does not affect its dispatch structure. -/
def IRLandingPad.push (s : IRLandingPad) (inBB : Nat) : IRLandingPad :=
  let wm := s.infos.length
  let infos' := s.infos ++ s.unpushed_infos
  let pad : Option (List Clause) :=
    if infos'.isEmpty then none
    else some (IRLandingPad.constructLandingPad infos' (wm :: s.nInfos))
  { s with
    infos := infos'
    unpushed_infos := []
    nInfos := wm :: s.nInfos
    padBBs := pad :: s.padBBs }

/-- Modelled from the spec: `IRLandingPad::pop` (body not in the provided
sources).  Pop the invoke-target stack, pop the watermark stack, and truncate
the Registry to the popped watermark.  Calling it with nothing open is a
fatal internal-consistency error, modelled as `none`. -/
def IRLandingPad.pop (s : IRLandingPad) : Option IRLandingPad :=
  match s.padBBs, s.nInfos with
  | _ :: pads, n :: ns =>
    some { s with infos := s.infos.take n, nInfos := ns, padBBs := pads }
  | _, _ => none

/-- Modelled from the spec: `IRLandingPad::get` (body not in the provided
sources).  The top of the invoke-target stack, or `none` when no scope is
open. -/
def IRLandingPad.get (s : IRLandingPad) : Option (List Clause) :=
  s.padBBs.headD none

/-- Modelled from the spec: `IRLandingPad::addCatch` (body not in the
provided sources).  Appends a catch descriptor to the pending set; rejected
immediately (`none`, fail fast) when no scope is open or when the exception
type or the target block is `NULL`. -/
def IRLandingPad.addCatch (s : IRLandingPad)
    (catchType target : Option Nat) : Option IRLandingPad :=
  match catchType, target with
  | some ty, some tg =>
    if s.padBBs.isEmpty then none
    else some { s with
      unpushed_infos := s.unpushed_infos ++ [IRLandingPadInfo.mkCatch ty tg] }
  | _, _ => none

/-- Modelled from the spec: `IRLandingPad::addFinally` (body not in the
provided sources).  Appends a finally descriptor to the pending set; rejected
immediately (`none`, fail fast) when no scope is open or when the cleanup
body is missing. -/
def IRLandingPad.addFinally (s : IRLandingPad)
    (body : Option Nat) : Option IRLandingPad :=
  match body with
  | some b =>
    if s.padBBs.isEmpty then none
    else some { s with
      unpushed_infos := s.unpushed_infos ++ [IRLandingPadInfo.mkFinally b] }
  | none => none

/-- Modelled from the spec: `IRLandingPad::getExceptionStorage` (body not in
the provided sources).  Returns the function's single exception slot,
allocating a fresh value on the first call and memoizing it in `catch_var`
thereafter. -/
def IRLandingPad.getExceptionStorage (s : IRLandingPad) :
    Nat × IRLandingPad :=
  match s.catch_var with
  | some v => (v, s)
  | none =>
    (s.nextVal, { s with catch_var := some s.nextVal, nextVal := s.nextVal + 1 })

/-- One externally invokable scope-stack operation. -/
inductive Op where
  | push (inBB : Nat)
  | pop
  | addCatch (catchType target : Option Nat)
  | addFinally (body : Option Nat)
  deriving DecidableEq

/-- Run one operation; `none` is the fatal / rejected outcome. -/
def IRLandingPad.step (s : IRLandingPad) : Op → Option IRLandingPad
  | Op.push bb => some (s.push bb)
  | Op.pop => s.pop
  | Op.addCatch ty tg => s.addCatch ty tg
  | Op.addFinally b => s.addFinally b

/-- Run a sequence of operations, stopping with `none` at the first fatal or
rejected one. -/
def IRLandingPad.run (s : IRLandingPad) : List Op → Option IRLandingPad
  | [] => some s
  | op :: ops =>
    match s.step op with
    | some s' => s'.run ops
    | none => none

/-- A state of the subsystem reachable from the freshly constructed state by
some sequence of successful operations. -/
def IRLandingPad.Reachable (s : IRLandingPad) : Prop :=
  ∃ ops : List Op, IRLandingPad.initial.run ops = some s

/-- Well-nested (balanced) operation sequences: registrations anywhere, and
every `push` closed by a matching `pop` around a balanced body. -/
inductive BalancedOps : List Op → Prop
  | nil : BalancedOps []
  | catchReg (ty tg : Option Nat) (ops : List Op) :
      BalancedOps ops → BalancedOps (Op.addCatch ty tg :: ops)
  | finallyReg (b : Option Nat) (ops : List Op) :
      BalancedOps ops → BalancedOps (Op.addFinally b :: ops)
  | scope (bb : Nat) (inner rest : List Op) :
      BalancedOps inner → BalancedOps rest →
      BalancedOps (Op.push bb :: (inner ++ Op.pop :: rest))

/-- The stack-shape invariant tying the invoke-target stack, the watermark
stack and the committed Registry length together: the stacks have equal
depth, the top watermark is below the Registry length, the top pad is `none`
exactly when the Registry is empty, and the same holds one level down for the
Registry truncated to the top watermark. -/
def StackInv : List (Option (List Clause)) → List Nat → Nat → Prop
  | [], [], len => len = 0
  | p :: ps, n :: ns, len => n ≤ len ∧ (p = none ↔ len = 0) ∧ StackInv ps ns n
  | _, _, _ => False

/-- The reachable-state invariant of a landing-pad state. -/
def IRLandingPad.Inv (s : IRLandingPad) : Prop :=
  StackInv s.padBBs s.nInfos s.infos.length

/-- Concrete state used in witnesses: reached by a wrapper push, one catch
registration and one further push, so a handler-carrying scope is open. -/
def reachedState : IRLandingPad :=
  ⟨[IRLandingPadInfo.mkCatch 1 2], [], [0, 0],
    [some [Clause.catchClause 1 2], none], none, 0⟩

/-- Concrete state used in witnesses: `reachedState` after an inner scope
was opened, a catch registered in it, and the scope popped again. -/
def poppedState : IRLandingPad :=
  ⟨[IRLandingPadInfo.mkCatch 1 2], [IRLandingPadInfo.mkCatch 7 8], [0, 0],
    [some [Clause.catchClause 1 2], none], none, 0⟩

/-- Concrete state used in witnesses: the initial state after one push, so
exactly one (handler-free) scope is open. -/
def openScopeState : IRLandingPad :=
  ⟨[], [], [0], [none], none, 0⟩

/-- Concrete state used in witnesses: `openScopeState` with one pending
catch descriptor. -/
def oneCatchPending : IRLandingPad :=
  ⟨[], [IRLandingPadInfo.mkCatch 1 2], [0], [none], none, 0⟩

/-- Concrete state used in witnesses: `openScopeState` with two pending
catch descriptors registered in order. -/
def twoCatchPending : IRLandingPad :=
  ⟨[], [IRLandingPadInfo.mkCatch 1 2, IRLandingPadInfo.mkCatch 3 4],
    [0], [none], none, 0⟩

/-- Concrete state used in witnesses: a state whose exception slot has
already been allocated. -/
def storedState : IRLandingPad :=
  ⟨[], [], [], [], some 5, 6⟩

/-- `step` on a `push` operation always succeeds and performs `push`. -/
theorem IRLandingPad.step_push (s : IRLandingPad) (bb : Nat) :
    s.step (Op.push bb) = some (s.push bb) := rfl

/-- `push` commits the pending descriptors at the tail of the Registry. -/
theorem IRLandingPad.push_infos (s : IRLandingPad) (bb : Nat) :
    (s.push bb).infos = s.infos ++ s.unpushed_infos := rfl

/-- `push` empties the pending container. -/
theorem IRLandingPad.push_unpushed (s : IRLandingPad) (bb : Nat) :
    (s.push bb).unpushed_infos = [] := rfl

/-- `push` records the pre-commit Registry length as the new watermark. -/
theorem IRLandingPad.push_nInfos (s : IRLandingPad) (bb : Nat) :
    (s.push bb).nInfos = s.infos.length :: s.nInfos := rfl

/-- `push` pushes the constructed pad (or `none` for an empty active
Registry) onto the invoke-target stack. -/
theorem IRLandingPad.push_padBBs (s : IRLandingPad) (bb : Nat) :
    (s.push bb).padBBs =
      (if (s.infos ++ s.unpushed_infos).isEmpty then none
       else some (IRLandingPad.constructLandingPad (s.infos ++ s.unpushed_infos)
          (s.infos.length :: s.nInfos))) :: s.padBBs := rfl

/-- `push` does not touch the memoized exception slot. -/
theorem IRLandingPad.push_catch_var (s : IRLandingPad) (bb : Nat) :
    (s.push bb).catch_var = s.catch_var := rfl

/-- `push` does not touch the allocator counter. -/
theorem IRLandingPad.push_nextVal (s : IRLandingPad) (bb : Nat) :
    (s.push bb).nextVal = s.nextVal := rfl

/-- Shape of a legal `pop`: with both stack tops exposed, `pop` drops them
and truncates the Registry to the popped watermark. -/
theorem IRLandingPad.pop_eq {s : IRLandingPad} {p : Option (List Clause)}
    {pads : List (Option (List Clause))} {n : Nat} {ns : List Nat}
    (hp : s.padBBs = p :: pads) (hn : s.nInfos = n :: ns) :
    s.pop = some { s with infos := s.infos.take n, nInfos := ns, padBBs := pads } := by
  unfold IRLandingPad.pop
  rw [hp, hn]

/-- A successful catch registration changes only the pending container. -/
theorem IRLandingPad.addCatch_some {s s' : IRLandingPad} {ty tg : Option Nat}
    (h : s.addCatch ty tg = some s') :
    s'.infos = s.infos ∧ s'.nInfos = s.nInfos ∧ s'.padBBs = s.padBBs ∧
      s'.catch_var = s.catch_var ∧ s'.nextVal = s.nextVal := by
  cases ty with
  | none => exact absurd h (by simp [IRLandingPad.addCatch])
  | some ty0 =>
    cases tg with
    | none => exact absurd h (by simp [IRLandingPad.addCatch])
    | some tg0 =>
      simp only [IRLandingPad.addCatch] at h
      by_cases he : s.padBBs.isEmpty
      · rw [if_pos he] at h; cases h
      · rw [if_neg he] at h
        injection h with h
        rw [← h]
        exact ⟨rfl, rfl, rfl, rfl, rfl⟩

/-- A successful finally registration changes only the pending container. -/
theorem IRLandingPad.addFinally_some {s s' : IRLandingPad} {b : Option Nat}
    (h : s.addFinally b = some s') :
    s'.infos = s.infos ∧ s'.nInfos = s.nInfos ∧ s'.padBBs = s.padBBs ∧
      s'.catch_var = s.catch_var ∧ s'.nextVal = s.nextVal := by
  cases b with
  | none => exact absurd h (by simp [IRLandingPad.addFinally])
  | some b0 =>
    simp only [IRLandingPad.addFinally] at h
    by_cases he : s.padBBs.isEmpty
    · rw [if_pos he] at h; cases h
    · rw [if_neg he] at h
      injection h with h
      rw [← h]
      exact ⟨rfl, rfl, rfl, rfl, rfl⟩

/-- `StackInv` forces the two stacks to have the same depth. -/
theorem StackInv.length_eq {ps : List (Option (List Clause))} :
    ∀ {ns : List Nat} {len : Nat}, StackInv ps ns len → ps.length = ns.length := by
  induction ps with
  | nil =>
    intro ns len h
    cases ns with
    | nil => rfl
    | cons n ns => exact h.elim
  | cons p ps ih =>
    intro ns len h
    cases ns with
    | nil => exact h.elim
    | cons n ns =>
      obtain ⟨-, -, h3⟩ := h
      simp [ih h3]

/-- `StackInv` bounds every watermark on the stack by the Registry length. -/
theorem StackInv.watermark_le {ps : List (Option (List Clause))} :
    ∀ {ns : List Nat} {len : Nat}, StackInv ps ns len → ∀ n ∈ ns, n ≤ len := by
  induction ps with
  | nil =>
    intro ns len h
    cases ns with
    | nil => intro n hn; exact absurd hn (List.not_mem_nil n)
    | cons n ns => exact h.elim
  | cons p ps ih =>
    intro ns len h
    cases ns with
    | nil => exact h.elim
    | cons n ns =>
      obtain ⟨h1, -, h3⟩ := h
      intro m hm
      rcases List.mem_cons.mp hm with hm | hm
      · exact hm ▸ h1
      · exact (ih h3 m hm).trans h1

/-- Under `StackInv`, the top of the invoke-target stack is `none` exactly
when the committed Registry is empty. -/
theorem StackInv.head_none_iff {ps : List (Option (List Clause))}
    {ns : List Nat} {len : Nat} (h : StackInv ps ns len) :
    ps.headD none = none ↔ len = 0 := by
  cases ps with
  | nil =>
    cases ns with
    | nil => simpa using h
    | cons n ns => exact h.elim
  | cons p ps =>
    cases ns with
    | nil => exact h.elim
    | cons n ns => simpa using h.2.1

/-- Every successful operation preserves the stack-shape invariant. -/
theorem IRLandingPad.inv_step {s s' : IRLandingPad} {op : Op}
    (h : s.step op = some s') (hi : s.Inv) : s'.Inv := by
  cases op with
  | push bb =>
    injection h with h
    rw [← h]
    show StackInv _ _ _
    rw [IRLandingPad.push_padBBs, IRLandingPad.push_nInfos, IRLandingPad.push_infos]
    refine ⟨by simp, ?_, hi⟩
    by_cases he : (s.infos ++ s.unpushed_infos).isEmpty
    · simp [he, List.isEmpty_iff.mp he]
    · have hne : s.infos ++ s.unpushed_infos ≠ [] := by
        intro hc; rw [hc] at he; exact he rfl
      rw [if_neg he]
      exact iff_of_false (by simp) (fun hl => hne (List.length_eq_zero.mp hl))
  | pop =>
    have hp : s.pop = some s' := h
    unfold IRLandingPad.pop at hp
    cases hbb : s.padBBs with
    | nil => rw [hbb] at hp; cases s.nInfos <;> cases hp
    | cons p pads =>
      cases hni : s.nInfos with
      | nil => rw [hbb, hni] at hp; cases hp
      | cons n ns =>
        rw [hbb, hni] at hp
        injection hp with hp
        have hi' := hi
        unfold IRLandingPad.Inv at hi'
        rw [hbb, hni] at hi'
        obtain ⟨h1, -, h3⟩ := hi'
        have hlen : (s.infos.take n).length = n := by
          rw [List.length_take]; exact min_eq_left h1
        show StackInv s'.padBBs s'.nInfos s'.infos.length
        rw [← hp]
        simpa [hlen] using h3
  | addCatch ty tg =>
    obtain ⟨h1, h2, h3, -, -⟩ := IRLandingPad.addCatch_some h
    show StackInv s'.padBBs s'.nInfos s'.infos.length
    rw [h1, h2, h3]
    exact hi
  | addFinally b =>
    obtain ⟨h1, h2, h3, -, -⟩ := IRLandingPad.addFinally_some h
    show StackInv s'.padBBs s'.nInfos s'.infos.length
    rw [h1, h2, h3]
    exact hi

/-- Running any successful operation sequence preserves the invariant. -/
theorem IRLandingPad.inv_run {ops : List Op} :
    ∀ {s s' : IRLandingPad}, s.run ops = some s' → s.Inv → s'.Inv := by
  induction ops with
  | nil =>
    intro s s' h hi
    injection h with h
    exact h ▸ hi
  | cons op ops ih =>
    intro s s' h hi
    unfold IRLandingPad.run at h
    cases hst : s.step op with
    | none => rw [hst] at h; cases h
    | some s₁ =>
      rw [hst] at h
      exact ih h (IRLandingPad.inv_step hst hi)

/-- The freshly constructed state satisfies the invariant. -/
theorem IRLandingPad.inv_initial : IRLandingPad.initial.Inv := rfl

/-- Every reachable state satisfies the stack-shape invariant. -/
theorem IRLandingPad.reachable_inv {s : IRLandingPad} (h : s.Reachable) : s.Inv := by
  obtain ⟨ops, hops⟩ := h
  exact IRLandingPad.inv_run hops IRLandingPad.inv_initial

/-- Running a concatenation of operation sequences is sequential
composition, failing as soon as either part fails. -/
theorem IRLandingPad.run_append (l₁ l₂ : List Op) :
    ∀ s : IRLandingPad, s.run (l₁ ++ l₂) = (s.run l₁).bind (fun t => t.run l₂) := by
  induction l₁ with
  | nil => intro s; rfl
  | cons op l₁ ih =>
    intro s
    simp only [List.cons_append, IRLandingPad.run]
    cases hst : s.step op with
    | none => rfl
    | some s₁ => exact ih s₁

/-- Unfolding one successful step at the front of a run. -/
theorem IRLandingPad.run_cons_of_step {s s₁ : IRLandingPad} {op : Op}
    (ops : List Op) (hst : s.step op = some s₁) :
    s.run (op :: ops) = s₁.run ops := by
  simp only [IRLandingPad.run, hst]

/-- A successfully run well-nested operation sequence restores the committed
Registry, the watermark stack and the invoke-target stack to what they were
before it (only the pending container and the exception slot may differ). -/
theorem IRLandingPad.balanced_run_restores {ops : List Op} (hb : BalancedOps ops) :
    ∀ {s s' : IRLandingPad}, s.run ops = some s' →
      s'.infos = s.infos ∧ s'.nInfos = s.nInfos ∧ s'.padBBs = s.padBBs := by
  induction hb with
  | nil =>
    intro s s' h
    injection h with h
    rw [h]
    exact ⟨rfl, rfl, rfl⟩
  | catchReg ty tg ops hb ih =>
    intro s s' h
    unfold IRLandingPad.run at h
    cases hst : s.step (Op.addCatch ty tg) with
    | none => rw [hst] at h; cases h
    | some s₁ =>
      rw [hst] at h
      obtain ⟨h1, h2, h3, -, -⟩ := IRLandingPad.addCatch_some hst
      obtain ⟨g1, g2, g3⟩ := ih h
      exact ⟨g1.trans h1, g2.trans h2, g3.trans h3⟩
  | finallyReg b ops hb ih =>
    intro s s' h
    unfold IRLandingPad.run at h
    cases hst : s.step (Op.addFinally b) with
    | none => rw [hst] at h; cases h
    | some s₁ =>
      rw [hst] at h
      obtain ⟨h1, h2, h3, -, -⟩ := IRLandingPad.addFinally_some hst
      obtain ⟨g1, g2, g3⟩ := ih h
      exact ⟨g1.trans h1, g2.trans h2, g3.trans h3⟩
  | scope bb inner rest hbi hbr ihi ihr =>
    intro s s' h
    rw [IRLandingPad.run_cons_of_step _ (IRLandingPad.step_push s bb)] at h
    rw [IRLandingPad.run_append] at h
    cases hri : (s.push bb).run inner with
    | none => rw [hri] at h; cases h
    | some s₂ =>
      rw [hri] at h
      have h' : s₂.run (Op.pop :: rest) = some s' := h
      obtain ⟨g1, g2, g3⟩ := ihi hri
      rw [IRLandingPad.push_infos] at g1
      rw [IRLandingPad.push_nInfos] at g2
      rw [IRLandingPad.push_padBBs] at g3
      have hpop := IRLandingPad.pop_eq g3 g2
      have hstep : s₂.step Op.pop = s₂.pop := rfl
      rw [IRLandingPad.run_cons_of_step rest (hstep.trans hpop)] at h'
      obtain ⟨f1, f2, f3⟩ := ihr h'
      refine ⟨?_, f2, f3⟩
      rw [f1, g1]
      exact List.take_left s.infos s.unpushed_infos

/-- A successful catch registration appends exactly one catch descriptor at
the tail of the pending container. -/
theorem IRLandingPad.addCatch_unpushed {s s' : IRLandingPad} {ty tg : Nat}
    (h : s.addCatch (some ty) (some tg) = some s') :
    s'.unpushed_infos = s.unpushed_infos ++ [IRLandingPadInfo.mkCatch ty tg] := by
  simp only [IRLandingPad.addCatch] at h
  by_cases he : s.padBBs.isEmpty
  · rw [if_pos he] at h; cases h
  · rw [if_neg he] at h
    injection h with h
    rw [← h]

/-- A successful finally registration appends exactly one finally descriptor
at the tail of the pending container. -/
theorem IRLandingPad.addFinally_unpushed {s s' : IRLandingPad} {b : Nat}
    (h : s.addFinally (some b) = some s') :
    s'.unpushed_infos = s.unpushed_infos ++ [IRLandingPadInfo.mkFinally b] := by
  simp only [IRLandingPad.addFinally] at h
  by_cases he : s.padBBs.isEmpty
  · rw [if_pos he] at h; cases h
  · rw [if_neg he] at h
    injection h with h
    rw [← h]

/-- Decomposition of the synthesized dispatch list at a fresh watermark: the
batch committed above the watermark is tested first (in registration order),
followed by the clauses of the enclosing, earlier-committed batches. -/
theorem IRLandingPad.constructLandingPad_append
    (infos pend : List IRLandingPadInfo) (ns : List Nat) :
    IRLandingPad.constructLandingPad (infos ++ pend) (infos.length :: ns) =
      pend.filterMap IRLandingPadInfo.toClause ++
        IRLandingPad.constructLandingPad infos ns := by
  simp only [IRLandingPad.constructLandingPad]
  rw [List.drop_left, List.take_left]

/-- Effect of a legal `pop` on every field: the pending container, the
exception slot and the allocator are untouched; both stacks shrink by one. -/
theorem IRLandingPad.pop_some {s s' : IRLandingPad} (h : s.pop = some s') :
    s'.unpushed_infos = s.unpushed_infos ∧ s'.catch_var = s.catch_var ∧
      s'.nextVal = s.nextVal ∧ s'.padBBs.length + 1 = s.padBBs.length ∧
      s'.nInfos.length + 1 = s.nInfos.length := by
  unfold IRLandingPad.pop at h
  cases hbb : s.padBBs with
  | nil =>
    rw [hbb] at h
    cases s.nInfos <;> cases h
  | cons p pads =>
    cases hni : s.nInfos with
    | nil => rw [hbb, hni] at h; cases h
    | cons n ns =>
      rw [hbb, hni] at h
      injection h with h
      rw [← h]
      simp [hbb, hni]

/-- C1: in every reachable state, `get()` returns a non-`none` invoke target
exactly when some currently open scope has at least one committed handler
(the committed Registry `infos` holds precisely the committed descriptors of
the currently open scopes); and a push performed with an empty active
Registry pushes `none`, so `get()` inside a handler-free scope returns
`none` unless an enclosing open scope supplies a handler. -/
theorem claim_C1_get_target_iff_committed_handler
    (s : IRLandingPad) (h : s.Reachable) :
    (s.get ≠ none ↔ s.infos ≠ []) ∧
      ∀ bb : Nat, s.infos = [] → s.unpushed_infos = [] → (s.push bb).get = none := by
  have hi := IRLandingPad.reachable_inv h
  have hiff := StackInv.head_none_iff hi
  constructor
  · constructor
    · intro hne hinfos
      exact hne (hiff.mpr (by rw [hinfos]; rfl))
    · intro hinfos hgn
      exact hinfos (List.length_eq_zero.mp (hiff.mp hgn))
  · intro bb h1 h2
    unfold IRLandingPad.get
    rw [IRLandingPad.push_padBBs, h1, h2]
    rfl

/-- C1 witness: in the concrete reachable state with a committed catch
handler in an open scope, `get()` is a real invoke target. -/
theorem claim_C1_witness : IRLandingPad.get reachedState ≠ none :=
  (claim_C1_get_target_iff_committed_handler reachedState
      ⟨[Op.push 0, Op.addCatch (some 1) (some 2), Op.push 3], rfl⟩).1.mpr
    (by decide)

/-- C2: in every reachable state the committed Registry length is at least
every watermark currently on the stack; and for every well-nested
push/addCatch/addFinally/pop sequence, the pop matching a push restores the
committed Registry exactly to that push's recorded watermark (the Registry
length at the push, see `IRLandingPad.push_nInfos`) — indeed to the very
same committed list. -/
theorem claim_C2_pop_restores_watermark :
    (∀ s : IRLandingPad, s.Reachable → ∀ n ∈ s.nInfos, n ≤ s.infos.length) ∧
      ∀ (s s' : IRLandingPad) (bb : Nat) (inner : List Op),
        BalancedOps inner →
        s.run (Op.push bb :: (inner ++ [Op.pop])) = some s' →
        s'.infos = s.infos ∧ s'.infos.length = s.infos.length := by
  constructor
  · intro s hs n hn
    exact StackInv.watermark_le (IRLandingPad.reachable_inv hs) n hn
  · intro s s' bb inner hb h
    have hball : BalancedOps (Op.push bb :: (inner ++ [Op.pop])) :=
      BalancedOps.scope bb inner [] hb BalancedOps.nil
    obtain ⟨h1, -, -⟩ := IRLandingPad.balanced_run_restores hball h
    exact ⟨h1, by rw [h1]⟩

/-- C2 witness: the watermark bound holds at the concrete reachable state,
and the concrete balanced segment push-register-pop restores the Registry
length of `reachedState`. -/
theorem claim_C2_witness :
    (0 ≤ reachedState.infos.length) ∧
      poppedState.infos.length = reachedState.infos.length :=
  ⟨claim_C2_pop_restores_watermark.1 reachedState
      ⟨[Op.push 0, Op.addCatch (some 1) (some 2), Op.push 3], rfl⟩ 0 (by decide),
    (claim_C2_pop_restores_watermark.2 reachedState poppedState 9
        [Op.addCatch (some 7) (some 8)]
        (BalancedOps.catchReg (some 7) (some 8) [] BalancedOps.nil) rfl).2⟩

/-- C3: when one scope registers catch clause A (target B1) and then catch
clause B (target B2), the landing pad built at the next push tests A before
B — the two clauses appear at the head of the dispatch list in registration
order, for arbitrary clause types (the model imposes no subtype
relationship), with the enclosing scopes' clauses only after them. -/
theorem claim_C3_catches_in_registration_order
    (s s₁ s₂ : IRLandingPad) (A B1 B B2 bb : Nat)
    (hu : s.unpushed_infos = [])
    (h1 : s.addCatch (some A) (some B1) = some s₁)
    (h2 : s₁.addCatch (some B) (some B2) = some s₂) :
    (s₂.push bb).get =
      some (Clause.catchClause A B1 :: Clause.catchClause B B2 ::
        IRLandingPad.constructLandingPad s.infos s.nInfos) := by
  have f1 := IRLandingPad.addCatch_some h1
  have f2 := IRLandingPad.addCatch_some h2
  have g1 := IRLandingPad.addCatch_unpushed h1
  have g2 := IRLandingPad.addCatch_unpushed h2
  have hinf : s₂.infos = s.infos := f2.1.trans f1.1
  have hni : s₂.nInfos = s.nInfos := f2.2.1.trans f1.2.1
  have hup : s₂.unpushed_infos =
      [IRLandingPadInfo.mkCatch A B1, IRLandingPadInfo.mkCatch B B2] := by
    rw [g2, g1, hu]
    rfl
  unfold IRLandingPad.get
  rw [IRLandingPad.push_padBBs, hinf, hni, hup]
  have hne : (s.infos ++ [IRLandingPadInfo.mkCatch A B1,
      IRLandingPadInfo.mkCatch B B2]).isEmpty = false := by
    cases s.infos <;> rfl
  rw [hne]
  rw [IRLandingPad.constructLandingPad_append]
  rfl

/-- C3 witness: with an open handler-free scope, registering catch 1→2 and
then catch 3→4 and pushing yields a pad testing type 1 before type 3. -/
theorem claim_C3_witness :
    (twoCatchPending.push 5).get =
      some (Clause.catchClause 1 2 :: Clause.catchClause 3 4 ::
        IRLandingPad.constructLandingPad openScopeState.infos openScopeState.nInfos) :=
  claim_C3_catches_in_registration_order openScopeState oneCatchPending
    twoCatchPending 1 2 3 4 5 rfl rfl rfl

/-- C4: the landing pad built by any push carries the newly committed
(innermost) batch first, in registration order, followed by the clauses of
all still-open enclosing scopes exactly as previously ordered
(innermost-first, cumulative); and in the spec's concrete scenario — outer
scope with catch 20→30, nested scope with finally 40 — the inner pad is
the finally clause first with the outer catch as fallback. -/
theorem claim_C4_cumulative_innermost_first :
    (∀ (s : IRLandingPad) (bb : Nat),
        (s.push bb).get =
          if (s.infos ++ s.unpushed_infos).isEmpty then none
          else some (s.unpushed_infos.filterMap IRLandingPadInfo.toClause ++
            IRLandingPad.constructLandingPad s.infos s.nInfos)) ∧
      (IRLandingPad.initial.run [Op.push 10, Op.addCatch (some 20) (some 30),
          Op.push 11, Op.addFinally (some 40), Op.push 12]).map IRLandingPad.get =
        some (some [Clause.cleanupClause 40, Clause.catchClause 20 30]) := by
  constructor
  · intro s bb
    unfold IRLandingPad.get
    rw [IRLandingPad.push_padBBs]
    by_cases he : (s.infos ++ s.unpushed_infos).isEmpty
    · rw [if_pos he, if_pos he]
      rfl
    · rw [if_neg he, if_neg he]
      rw [IRLandingPad.constructLandingPad_append]
      rfl
  · rfl

/-- C5: `getExceptionStorage()` is memoized: in any state whose slot is
already allocated it returns that identical slot and leaves the state
unchanged; and after any call, an immediately repeated call returns the
identical value and state, with the slot recorded in `catch_var`. -/
theorem claim_C5_exception_storage_memoized :
    (∀ (s : IRLandingPad) (v : Nat), s.catch_var = some v →
        s.getExceptionStorage = (v, s)) ∧
      ∀ s : IRLandingPad,
        (s.getExceptionStorage.2).getExceptionStorage = s.getExceptionStorage ∧
          (s.getExceptionStorage.2).catch_var = some s.getExceptionStorage.1 := by
  constructor
  · intro s v h
    unfold IRLandingPad.getExceptionStorage
    rw [h]
  · intro s
    cases h : s.catch_var with
    | some v =>
      have h1 : s.getExceptionStorage = (v, s) := by
        unfold IRLandingPad.getExceptionStorage
        rw [h]
      rw [h1]
      exact ⟨h1, h⟩
    | none =>
      have h1 : s.getExceptionStorage =
          (s.nextVal,
            { s with catch_var := some s.nextVal, nextVal := s.nextVal + 1 }) := by
        unfold IRLandingPad.getExceptionStorage
        rw [h]
      rw [h1]
      exact ⟨rfl, rfl⟩

/-- C5 witness: in the concrete state whose slot is already allocated at 5,
the call returns 5 and leaves the state untouched. -/
theorem claim_C5_witness :
    IRLandingPad.getExceptionStorage storedState = (5, storedState) :=
  claim_C5_exception_storage_memoized.1 storedState 5 rfl

/-- C6: calling `pop()` when no scope is open (both stacks empty) takes the
fatal internal-consistency path (modelled `none`); it is never a silent
no-op returning an unchanged state. -/
theorem claim_C6_pop_without_push_fatal (s : IRLandingPad)
    (hp : s.padBBs = []) (hn : s.nInfos = []) : s.pop = none := by
  unfold IRLandingPad.pop
  rw [hp, hn]

/-- C6 witness: `pop` on the freshly constructed state is fatal. -/
theorem claim_C6_witness : IRLandingPad.initial.pop = none :=
  claim_C6_pop_without_push_fatal IRLandingPad.initial rfl rfl

/-- C7: `addCatch`/`addFinally` fail fast at the registration call: with no
open scope the registration is rejected, and a `NULL` exception type, target
block or cleanup body is rejected, rather than deferred to landing-pad
construction. -/
theorem claim_C7_registration_fail_fast
    (s : IRLandingPad) (ty tg b : Option Nat) :
    (s.padBBs = [] → s.addCatch ty tg = none) ∧
      (s.padBBs = [] → s.addFinally b = none) ∧
      s.addCatch none tg = none ∧
      s.addCatch ty none = none ∧
      s.addFinally none = none := by
  refine ⟨?_, ?_, ?_, ?_, rfl⟩
  · intro hp
    cases ty with
    | none => cases tg <;> rfl
    | some ty0 =>
      cases tg with
      | none => rfl
      | some tg0 =>
        simp only [IRLandingPad.addCatch]
        rw [if_pos (by rw [hp]; rfl)]
  · intro hp
    cases b with
    | none => rfl
    | some b0 =>
      simp only [IRLandingPad.addFinally]
      rw [if_pos (by rw [hp]; rfl)]
  · cases tg <;> rfl
  · cases ty <;> rfl

/-- C7 witness: valid-looking registrations are still rejected in the
initial state, where no scope is open. -/
theorem claim_C7_witness :
    IRLandingPad.initial.addCatch (some 1) (some 2) = none ∧
      IRLandingPad.initial.addFinally (some 3) = none :=
  ⟨(claim_C7_registration_fail_fast IRLandingPad.initial
        (some 1) (some 2) (some 3)).1 rfl,
    (claim_C7_registration_fail_fast IRLandingPad.initial
        (some 1) (some 2) (some 3)).2.1 rfl⟩

/-- C8: the invoke-target stack and the watermark stack have identical depth
in every reachable state; `push` grows both by one and a legal `pop` shrinks
both by one. -/
theorem claim_C8_stack_depths_synchronized :
    (∀ s : IRLandingPad, s.Reachable → s.padBBs.length = s.nInfos.length) ∧
      (∀ (s : IRLandingPad) (bb : Nat),
        (s.push bb).padBBs.length = s.padBBs.length + 1 ∧
          (s.push bb).nInfos.length = s.nInfos.length + 1) ∧
      ∀ s s' : IRLandingPad, s.pop = some s' →
        s'.padBBs.length + 1 = s.padBBs.length ∧
          s'.nInfos.length + 1 = s.nInfos.length := by
  refine ⟨?_, ?_, ?_⟩
  · intro s hs
    exact StackInv.length_eq (IRLandingPad.reachable_inv hs)
  · intro s bb
    constructor
    · rw [IRLandingPad.push_padBBs]
      rfl
    · rw [IRLandingPad.push_nInfos]
      rfl
  · intro s s' h
    have hf := IRLandingPad.pop_some h
    exact ⟨hf.2.2.2.1, hf.2.2.2.2⟩

/-- C8 witness: equal depths at the concrete reachable state, and a concrete
pop shrinking the invoke-target stack by one. -/
theorem claim_C8_witness :
    reachedState.padBBs.length = reachedState.nInfos.length ∧
      IRLandingPad.initial.padBBs.length + 1 =
        (IRLandingPad.initial.push 0).padBBs.length :=
  ⟨claim_C8_stack_depths_synchronized.1 reachedState
      ⟨[Op.push 0, Op.addCatch (some 1) (some 2), Op.push 3], rfl⟩,
    (claim_C8_stack_depths_synchronized.2.2 (IRLandingPad.initial.push 0)
        IRLandingPad.initial rfl).1⟩

/-- C9: every push moves all pending descriptors into the committed
sequence, leaving the pending container empty, and a registration made after
that push does not retroactively change the committed sequence — it waits in
the pending container for the next-opened scope. -/
theorem claim_C9_push_commits_all_pending (s : IRLandingPad) (bb : Nat) :
    (s.push bb).unpushed_infos = [] ∧
      (s.push bb).infos = s.infos ++ s.unpushed_infos ∧
      (∀ (ty tg : Option Nat) (s' : IRLandingPad),
        (s.push bb).addCatch ty tg = some s' → s'.infos = (s.push bb).infos) ∧
      ∀ (b : Option Nat) (s' : IRLandingPad),
        (s.push bb).addFinally b = some s' → s'.infos = (s.push bb).infos := by
  refine ⟨rfl, rfl, ?_, ?_⟩
  · intro ty tg s' h
    exact (IRLandingPad.addCatch_some h).1
  · intro b s' h
    exact (IRLandingPad.addFinally_some h).1

/-- C9 witness: after the concrete initial push nothing is pending, and a
catch registered afterwards leaves the committed sequence unchanged. -/
theorem claim_C9_witness :
    (IRLandingPad.initial.push 0).unpushed_infos = [] ∧
      oneCatchPending.infos = (IRLandingPad.initial.push 0).infos :=
  ⟨(claim_C9_push_commits_all_pending IRLandingPad.initial 0).1,
    (claim_C9_push_commits_all_pending IRLandingPad.initial 0).2.2.1
      (some 1) (some 2) oneCatchPending rfl⟩

/-- C10: a legal `pop` modifies only the committed sequence and the two
stacks: the pending container, the memoized exception slot and the allocator
counter are unchanged. -/
theorem claim_C10_pop_frame (s s' : IRLandingPad) (h : s.pop = some s') :
    s'.unpushed_infos = s.unpushed_infos ∧ s'.catch_var = s.catch_var ∧
      s'.nextVal = s.nextVal := by
  have hf := IRLandingPad.pop_some h
  exact ⟨hf.1, hf.2.1, hf.2.2.1⟩

/-- C10 witness: the concrete pop of the single open scope leaves pending
container and exception slot untouched. -/
theorem claim_C10_witness :
    IRLandingPad.initial.unpushed_infos =
        (IRLandingPad.initial.push 0).unpushed_infos ∧
      IRLandingPad.initial.catch_var = (IRLandingPad.initial.push 0).catch_var ∧
      IRLandingPad.initial.nextVal = (IRLandingPad.initial.push 0).nextVal :=
  claim_C10_pop_frame (IRLandingPad.initial.push 0) IRLandingPad.initial rfl
